import Mathlib

/-!
A verification development for the rayhunter diag codec and recording
pipeline.  The definitions below are a shallow embedding of the Rust
sources: `src/src/diag.rs` (the deku-derived wire codec, the log-mask
builder and the timestamp conversion) and `src/bin/src/diag.rs` (the
container-processing step of the diag read thread).  Bytes are modelled
as naturals below 256, machine integers as naturals (with explicit
`% 2^w` where wrap-around matters), and fallible decoding as `Option`.
-/

namespace Rayhunter

/-! ## Byte-level parsing primitives

deku reads fields sequentially from a byte stream; a parser consumes a
prefix of the byte list and returns the value together with the unread
rest, or `none` on a malformed/truncated frame (deku's `DekuError`). -/

def Parser (α : Type) : Type := List Nat → Option (α × List Nat)

instance : Monad Parser where
  pure a := fun bs => some (a, bs)
  bind p f := fun bs =>
    match p bs with
    | some (a, r) => f a r
    | none => none

/-- The failing parser: an unmatched tag is a `DekuError`. -/
def pfail {α : Type} : Parser α := fun _ => none

/-- Read one byte (`u8`). -/
def readU8 : Parser Nat := fun bs =>
  match bs with
  | [] => none
  | b :: r => some (b, r)

/-- Read a little-endian `u16`. -/
def readU16le : Parser Nat := fun bs =>
  match bs with
  | b0 :: b1 :: r => some (b0 + 256 * b1, r)
  | _ => none

/-- Read a little-endian `u32`. -/
def readU32le : Parser Nat := fun bs =>
  match bs with
  | b0 :: b1 :: b2 :: b3 :: r =>
      some (b0 + 256 * b1 + 65536 * b2 + 16777216 * b3, r)
  | _ => none

/-- Read a little-endian `u64`. -/
def readU64le : Parser Nat := fun bs =>
  match bs with
  | b0 :: b1 :: b2 :: b3 :: b4 :: b5 :: b6 :: b7 :: r =>
      some (b0 + 256 * b1 + 65536 * b2 + 16777216 * b3 + 4294967296 * b4 +
            1099511627776 * b5 + 281474976710656 * b6 + 72057594037927936 * b7, r)
  | _ => none

/-- Read `n` raw bytes (deku `count = ...`); fails when the declared
count exceeds the bytes available. -/
def readBytes (n : Nat) : Parser (List Nat) := fun bs =>
  if n ≤ bs.length then some (bs.take n, bs.drop n) else none

/-- Wrapping `u16` subtraction (release-profile Rust semantics of
`a - b` on `u16`), used for the `inner_length - 12`, `hdr_len - 4` and
`hdr_len - 8` context expressions.  `b` is a constant at every use
site, so `b ≤ 65536` always holds. -/
def wsub16 (a b : Nat) : Nat := (a + 65536 - b) % 65536

/-! ## Data model (`src/src/diag.rs`) -/

/-- `DataType`: `u32` tag, id 32 is `UserSpace`, the catch-all
(`id_pat = "_"`) keeps the raw value. -/
inductive DataType
  | UserSpace
  | Other (value : Nat)
deriving DecidableEq, Repr

structure HdlcEncapsulatedMessage where
  len : Nat
  data : List Nat
deriving DecidableEq, Repr

structure MessagesContainer where
  data_type : DataType
  num_messages : Nat
  messages : List HdlcEncapsulatedMessage
deriving DecidableEq, Repr

/-- 64-bit raw tick counter, read little-endian. -/
structure Timestamp where
  ts : Nat
deriving DecidableEq, Repr

/-- The four version-range variants of the LTE RRC OTA packet: the
`ext_header_version` context selects `V0` for 0..=4, `V5` for 5..=7,
`V8` for 8..=24 and `V25` for 25.. . -/
inductive LteRrcOtaPacket
  | V0 (rrc_rel_maj rrc_rel_min bearer_id phy_cell_id earfcn sfn_subfn pdu_num
        len : Nat) (packet : List Nat)
  | V5 (rrc_rel_maj rrc_rel_min bearer_id phy_cell_id earfcn sfn_subfn pdu_num
        sib_mask len : Nat) (packet : List Nat)
  | V8 (rrc_rel_maj rrc_rel_min bearer_id phy_cell_id earfcn sfn_subfn pdu_num
        sib_mask len : Nat) (packet : List Nat)
  | V25 (rrc_rel_maj rrc_rel_min nr_rrc_rel_maj nr_rrc_rel_min bearer_id
         phy_cell_id earfcn sfn_subfn pdu_num sib_mask len : Nat)
        (packet : List Nat)
deriving DecidableEq, Repr

/-- `LogBody`, selected by the `log_type` context; `hdr_len` is the
`inner_length - 12` context passed down by `Message`. -/
inductive LogBody
  | WcdmaSignallingMessage (channel_type radio_bearer length : Nat) (msg : List Nat)
  | GsmRrSignallingMessage (channel_type message_type length : Nat) (msg : List Nat)
  | GprsMacSignallingMessage (channel_type message_type length : Nat) (msg : List Nat)
  | LteRrcOtaMessage (ext_header_version : Nat) (packet : LteRrcOtaPacket)
  | Nas4GMessage (ext_header_version rrc_rel rrc_version_minor
                  rrc_version_major : Nat) (msg : List Nat)
  | IpTraffic (msg : List Nat)
  | UmtsNasOtaMessage (is_uplink length : Nat) (msg : List Nat)
  | NrRrcOtaMessage (msg : List Nat)
deriving DecidableEq, Repr

inductive LogConfigResponse
  | RetrieveIdRanges (log_mask_sizes : List Nat)
  | SetMask
deriving DecidableEq, Repr

inductive ResponsePayload
  | LogConfig (resp : LogConfigResponse)
deriving DecidableEq, Repr

/-- `Message`: `u8` tag, id 16 is `Log`, anything else falls to the
`Response` catch-all. -/
inductive Message
  | Log (pending_msgs outer_length inner_length log_type : Nat)
        (timestamp : Timestamp) (body : LogBody)
  | Response (opcode subopcode status : Nat) (payload : ResponsePayload)
deriving DecidableEq, Repr

/-! ## Decoders -/

/-- The `V0` packet layout (`id_pat = "0..=4"`). -/
def parseLteRrcV0 : Parser LteRrcOtaPacket := do
  let rrc_rel_maj ← readU8
  let rrc_rel_min ← readU8
  let bearer_id ← readU8
  let phy_cell_id ← readU16le
  let earfcn ← readU16le
  let sfn_subfn ← readU16le
  let pdu_num ← readU8
  let len ← readU16le
  let packet ← readBytes len
  pure (LteRrcOtaPacket.V0 rrc_rel_maj rrc_rel_min bearer_id phy_cell_id
    earfcn sfn_subfn pdu_num len packet)

/-- The `V5` packet layout (`id_pat = "5..=7"`). -/
def parseLteRrcV5 : Parser LteRrcOtaPacket := do
  let rrc_rel_maj ← readU8
  let rrc_rel_min ← readU8
  let bearer_id ← readU8
  let phy_cell_id ← readU16le
  let earfcn ← readU16le
  let sfn_subfn ← readU16le
  let pdu_num ← readU8
  let sib_mask ← readU32le
  let len ← readU16le
  let packet ← readBytes len
  pure (LteRrcOtaPacket.V5 rrc_rel_maj rrc_rel_min bearer_id phy_cell_id
    earfcn sfn_subfn pdu_num sib_mask len packet)

/-- The `V8` packet layout (`id_pat = "8..=24"`, 32-bit `earfcn`). -/
def parseLteRrcV8 : Parser LteRrcOtaPacket := do
  let rrc_rel_maj ← readU8
  let rrc_rel_min ← readU8
  let bearer_id ← readU8
  let phy_cell_id ← readU16le
  let earfcn ← readU32le
  let sfn_subfn ← readU16le
  let pdu_num ← readU8
  let sib_mask ← readU32le
  let len ← readU16le
  let packet ← readBytes len
  pure (LteRrcOtaPacket.V8 rrc_rel_maj rrc_rel_min bearer_id phy_cell_id
    earfcn sfn_subfn pdu_num sib_mask len packet)

/-- The `V25` packet layout (`id_pat = "25.."`, extra NR release fields). -/
def parseLteRrcV25 : Parser LteRrcOtaPacket := do
  let rrc_rel_maj ← readU8
  let rrc_rel_min ← readU8
  let nr_rrc_rel_maj ← readU8
  let nr_rrc_rel_min ← readU8
  let bearer_id ← readU8
  let phy_cell_id ← readU16le
  let earfcn ← readU32le
  let sfn_subfn ← readU16le
  let pdu_num ← readU8
  let sib_mask ← readU32le
  let len ← readU16le
  let packet ← readBytes len
  pure (LteRrcOtaPacket.V25 rrc_rel_maj rrc_rel_min nr_rrc_rel_maj
    nr_rrc_rel_min bearer_id phy_cell_id earfcn sfn_subfn pdu_num sib_mask
    len packet)

/-- Decode one `LteRrcOtaPacket` given the `ext_header_version`
context; the `id_pat` ranges are tried in source order. -/
def parseLteRrcOtaPacket (ext_header_version : Nat) : Parser LteRrcOtaPacket :=
  if ext_header_version ≤ 4 then parseLteRrcV0
  else if 5 ≤ ext_header_version ∧ ext_header_version ≤ 7 then parseLteRrcV5
  else if 8 ≤ ext_header_version ∧ ext_header_version ≤ 24 then parseLteRrcV8
  else if 25 ≤ ext_header_version then parseLteRrcV25
  else pfail

/-- The `log_type` ids that have a `LogBody` variant (no catch-all). -/
def knownLogTypes : List Nat :=
  [0x412f, 0x512f, 0x5226, 0xb0c0, 0xb0e2, 0xb0e3, 0xb0ec, 0xb0ed,
   0x11eb, 0x713a, 0xb821]

/-- The `0x412f` WCDMA signalling variant fields. -/
def parseWcdmaSignallingMessage : Parser LogBody := do
  let channel_type ← readU8
  let radio_bearer ← readU8
  let length ← readU16le
  let msg ← readBytes length
  pure (LogBody.WcdmaSignallingMessage channel_type radio_bearer length msg)

/-- The `0x512f` GSM RR signalling variant fields. -/
def parseGsmRrSignallingMessage : Parser LogBody := do
  let channel_type ← readU8
  let message_type ← readU8
  let length ← readU8
  let msg ← readBytes length
  pure (LogBody.GsmRrSignallingMessage channel_type message_type length msg)

/-- The `0x5226` GPRS MAC signalling variant fields. -/
def parseGprsMacSignallingMessage : Parser LogBody := do
  let channel_type ← readU8
  let message_type ← readU8
  let length ← readU8
  let msg ← readBytes length
  pure (LogBody.GprsMacSignallingMessage channel_type message_type length msg)

/-- The `0xb0c0` LTE RRC OTA variant fields. -/
def parseLteRrcOtaMessage : Parser LogBody := do
  let ext_header_version ← readU8
  let packet ← parseLteRrcOtaPacket ext_header_version
  pure (LogBody.LteRrcOtaMessage ext_header_version packet)

/-- The `0xb0e2 | 0xb0e3 | 0xb0ec | 0xb0ed` 4G NAS variant fields;
trailing length is `hdr_len - 4` (wrapping `u16`). -/
def parseNas4GMessage (hdr_len : Nat) : Parser LogBody := do
  let ext_header_version ← readU8
  let rrc_rel ← readU8
  let rrc_version_minor ← readU8
  let rrc_version_major ← readU8
  let msg ← readBytes (wsub16 hdr_len 4)
  pure (LogBody.Nas4GMessage ext_header_version rrc_rel rrc_version_minor
    rrc_version_major msg)

/-- The `0x11eb` IP traffic variant fields; trailing length is
`hdr_len - 8` (wrapping `u16`). -/
def parseIpTraffic (hdr_len : Nat) : Parser LogBody := do
  let msg ← readBytes (wsub16 hdr_len 8)
  pure (LogBody.IpTraffic msg)

/-- The `0x713a` UMTS NAS variant fields. -/
def parseUmtsNasOtaMessage : Parser LogBody := do
  let is_uplink ← readU8
  let length ← readU32le
  let msg ← readBytes length
  pure (LogBody.UmtsNasOtaMessage is_uplink length msg)

/-- The `0xb821` NR RRC variant fields, consuming the full `hdr_len`. -/
def parseNrRrcOtaMessage (hdr_len : Nat) : Parser LogBody := do
  let msg ← readBytes hdr_len
  pure (LogBody.NrRrcOtaMessage msg)

/-- Decode one `LogBody` given the `log_type` and `hdr_len` context;
the ids are tried in source order and there is no catch-all. -/
def parseLogBody (log_type hdr_len : Nat) : Parser LogBody :=
  if log_type = 0x412f then parseWcdmaSignallingMessage
  else if log_type = 0x512f then parseGsmRrSignallingMessage
  else if log_type = 0x5226 then parseGprsMacSignallingMessage
  else if log_type = 0xb0c0 then parseLteRrcOtaMessage
  else if log_type = 0xb0e2 ∨ log_type = 0xb0e3 ∨ log_type = 0xb0ec ∨
          log_type = 0xb0ed then parseNas4GMessage hdr_len
  else if log_type = 0x11eb then parseIpTraffic hdr_len
  else if log_type = 0x713a then parseUmtsNasOtaMessage
  else if log_type = 0xb821 then parseNrRrcOtaMessage hdr_len
  else pfail

/-- Decode the `[u32; 16]` mask-size array (`n` little-endian words). -/
def readU32leList : Nat → Parser (List Nat)
  | 0 => pure []
  | n + 1 => do
    let v ← readU32le
    let rest ← readU32leList n
    pure (v :: rest)

def parseLogConfigResponse (subopcode : Nat) : Parser LogConfigResponse :=
  if subopcode = 1 then do
    let log_mask_sizes ← readU32leList 16
    pure (LogConfigResponse.RetrieveIdRanges log_mask_sizes)
  else if subopcode = 3 then pure LogConfigResponse.SetMask
  else pfail

def parseResponsePayload (opcode subopcode : Nat) : Parser ResponsePayload :=
  if opcode = 115 then do
    let resp ← parseLogConfigResponse subopcode
    pure (ResponsePayload.LogConfig resp)
  else pfail

/-- The fields of the `Log` variant, after the consumed id byte. -/
def parseLogVariant : Parser Message := do
  let pending_msgs ← readU8
  let outer_length ← readU16le
  let inner_length ← readU16le
  let log_type ← readU16le
  let ts ← readU64le
  let body ← parseLogBody log_type (wsub16 inner_length 12)
  pure (Message.Log pending_msgs outer_length inner_length log_type ⟨ts⟩ body)

/-- The fields of the `Response` catch-all variant. -/
def parseResponseVariant : Parser Message := do
  let opcode ← readU32le
  let subopcode ← readU32le
  let status ← readU32le
  let payload ← parseResponsePayload opcode subopcode
  pure (Message.Response opcode subopcode status payload)

/-- Decode one `Message`.  The `u8` discriminant selects `Log` for 16;
any other value falls to the `Response` catch-all (`id_pat = "_"`),
whose fields re-read from the start of the buffer (the discriminant is
not consumed for a catch-all variant). -/
def parseMessage : Parser Message := fun bs =>
  match readU8 bs with
  | none => none
  | some (tag, r1) =>
    if tag = 16 then parseLogVariant r1
    else parseResponseVariant bs

def parseDataType : Parser DataType := do
  let v ← readU32le
  if v = 32 then pure DataType.UserSpace else pure (DataType.Other v)

def parseHdlcEncapsulatedMessage : Parser HdlcEncapsulatedMessage := do
  let len ← readU32le
  let data ← readBytes len
  pure ⟨len, data⟩

def parseHdlcList : Nat → Parser (List HdlcEncapsulatedMessage)
  | 0 => pure []
  | n + 1 => do
    let m ← parseHdlcEncapsulatedMessage
    let ms ← parseHdlcList n
    pure (m :: ms)

/-- Decode a `MessagesContainer`: tag, count, then exactly `count`
length-prefixed blobs. -/
def parseMessagesContainer : Parser MessagesContainer := do
  let data_type ← parseDataType
  let num_messages ← readU32le
  let messages ← parseHdlcList num_messages
  pure ⟨data_type, num_messages, messages⟩

/-- Each blob of a container is decoded independently into a `Message`
(`dev.as_stream` hands every `HdlcEncapsulatedMessage` separately to
`Message::from_bytes`). -/
def decodeContainerMessages (c : MessagesContainer) : List (Option Message) :=
  c.messages.map fun m => (parseMessage m.data).map Prod.fst

/-! ## Accessors (`impl LteRrcOtaPacket`) -/

def LteRrcOtaPacket.get_sfn_subfn : LteRrcOtaPacket → Nat
  | .V0 _ _ _ _ _ sfn_subfn _ _ _ => sfn_subfn
  | .V5 _ _ _ _ _ sfn_subfn _ _ _ _ => sfn_subfn
  | .V8 _ _ _ _ _ sfn_subfn _ _ _ _ => sfn_subfn
  | .V25 _ _ _ _ _ _ _ sfn_subfn _ _ _ _ => sfn_subfn

def LteRrcOtaPacket.get_sfn (p : LteRrcOtaPacket) : Nat :=
  p.get_sfn_subfn >>> 4

def LteRrcOtaPacket.get_subfn (p : LteRrcOtaPacket) : Nat :=
  p.get_sfn_subfn &&& 0xf

def LteRrcOtaPacket.get_pdu_num : LteRrcOtaPacket → Nat
  | .V0 _ _ _ _ _ _ pdu_num _ _ => pdu_num
  | .V5 _ _ _ _ _ _ pdu_num _ _ _ => pdu_num
  | .V8 _ _ _ _ _ _ pdu_num _ _ _ => pdu_num
  | .V25 _ _ _ _ _ _ _ _ pdu_num _ _ _ => pdu_num

def LteRrcOtaPacket.get_earfcn : LteRrcOtaPacket → Nat
  | .V0 _ _ _ _ earfcn _ _ _ _ => earfcn
  | .V5 _ _ _ _ earfcn _ _ _ _ _ => earfcn
  | .V8 _ _ _ _ earfcn _ _ _ _ _ => earfcn
  | .V25 _ _ _ _ _ _ earfcn _ _ _ _ _ => earfcn

def LteRrcOtaPacket.take_payload : LteRrcOtaPacket → List Nat
  | .V0 _ _ _ _ _ _ _ _ packet => packet
  | .V5 _ _ _ _ _ _ _ _ _ packet => packet
  | .V8 _ _ _ _ _ _ _ _ _ packet => packet
  | .V25 _ _ _ _ _ _ _ _ _ _ _ packet => packet

/-! ## Encoders (`DekuWrite` side) -/

/-- Little-endian byte encoding of a `u32` value. -/
def u32le (v : Nat) : List Nat :=
  [v % 256, v / 256 % 256, v / 65536 % 256, v / 16777216 % 256]

/-- Little-endian byte encoding of an `i32` value (two's complement). -/
def i32le (v : Int) : List Nat := u32le (v % 4294967296).toNat

/-- `DataType` encoding: `UserSpace` writes its id 32; the `Other`
catch-all writes its stored `u32` field (no separate id is written for
an `id_pat` variant). -/
def encodeDataType : DataType → List Nat
  | DataType.UserSpace => u32le 32
  | DataType.Other v => u32le v

/-- `RequestContainer`: `data_type`, then — skipped entirely unless
`use_mdm` — the `mdm_field`, then the HDLC-encapsulated request bytes;
`use_mdm` itself is `#[deku(skip)]` and never serialized. -/
structure RequestContainer where
  data_type : DataType
  use_mdm : Bool
  mdm_field : Int
  hdlc_encapsulated_request : List Nat

def encodeRequestContainer (c : RequestContainer) : List Nat :=
  encodeDataType c.data_type ++
    (if c.use_mdm then i32le c.mdm_field else []) ++
    c.hdlc_encapsulated_request

/-! ## The log-mask builder (`build_log_mask_request`) -/

inductive LogConfigRequest
  | RetrieveIdRanges
  | SetMask (log_type log_mask_bitsize : Nat) (log_mask : List Nat)
deriving DecidableEq, Repr

inductive Request
  | LogConfig (req : LogConfigRequest)
deriving DecidableEq, Repr

/-- The loop body of `build_log_mask_request`, one recursive step per
iteration of `for i in 0..log_mask_bitsize`; the first argument is the
number of iterations left (`log_mask_bitsize - i`).  State:
`current_byte`, `num_bits_written`, accumulated `log_mask`.  The Rust
`log_type << 12` is `u32` arithmetic, hence the `% 2^32`. -/
def maskLoop (log_type log_mask_bitsize : Nat) (accepted_log_codes : List Nat) :
    Nat → Nat → Nat → Nat → List Nat → List Nat
  | 0, _, _, _, log_mask => log_mask
  | remaining + 1, i, current_byte, num_bits_written, log_mask =>
    let log_code := (log_type <<< 12) % 4294967296 ||| i
    let cb := if log_code ∈ accepted_log_codes then
        current_byte ||| (1 <<< num_bits_written)
      else current_byte
    let nbw := num_bits_written + 1
    if nbw = 8 ∨ i = log_mask_bitsize - 1 then
      maskLoop log_type log_mask_bitsize accepted_log_codes remaining (i + 1)
        0 0 (log_mask ++ [cb])
    else
      maskLoop log_type log_mask_bitsize accepted_log_codes remaining (i + 1)
        cb nbw log_mask

/-- The mask built by `build_log_mask_request`: the loop starting from
`i = 0`, empty working byte and empty output. -/
def build_log_mask (log_type log_mask_bitsize : Nat)
    (accepted_log_codes : List Nat) : List Nat :=
  maskLoop log_type log_mask_bitsize accepted_log_codes log_mask_bitsize 0 0 0 []

def build_log_mask_request (log_type log_mask_bitsize : Nat)
    (accepted_log_codes : List Nat) : Request :=
  Request.LogConfig (LogConfigRequest.SetMask log_type log_mask_bitsize
    (build_log_mask log_type log_mask_bitsize accepted_log_codes))

/-- Bit `j` of a mask, LSB-first within each byte: bit `j % 8` of byte
`j / 8`. -/
def maskBit (mask : List Nat) (j : Nat) : Bool :=
  (mask.getD (j / 8) 0).testBit (j % 8)

/-- The candidate log code for bit index `i`. -/
def logCodeFor (log_type i : Nat) : Nat := (log_type <<< 12) % 4294967296 ||| i

/-! ## Timestamp conversion (`Timestamp::to_datetime`)

`to_datetime` computes `ts_upper as f64 * 1.25 + ts_lower as f64 / 40960.0`
in IEEE binary64 arithmetic and truncates the nonnegative result with
`as i64` before handing it to `Duration::milliseconds`.  The binary64
arithmetic is modelled exactly: `roundF64` rounds a nonnegative
rational onto the 53-bit significand grid of its binade, ties to even —
the IEEE round-to-nearest-even rule.  Every value arising here is
normal, far from overflow, and nonnegative, and for a `u64` tick count
the integer operands are below `2^48` and convert to `f64` exactly, so
rounding applies to the product, the quotient and the sum. -/

/-- 1980-01-06T00:00:00Z (the epoch used by `to_datetime`) in
milliseconds since the Unix epoch. -/
def epoch_1980_01_06_unix_ms : Int := 315964800000

/-- Round a rational to the nearest integer, ties to even. -/
def roundHalfEven (x : ℚ) : Int :=
  if x - Int.floor x < 1 / 2 then Int.floor x
  else if 1 / 2 < x - Int.floor x then Int.floor x + 1
  else if Int.floor x % 2 = 0 then Int.floor x else Int.floor x + 1

/-- Largest exponent `e` with `-32 ≤ e ≤ fuel - 33` and `2^e ≤ q`
(`-32` when none exists), searched from above. -/
def f64expSearch (q : ℚ) : Nat → Int
  | 0 => -32
  | f + 1 =>
    if (2 : ℚ) ^ ((f : Int) - 32) ≤ q then (f : Int) - 32 else f64expSearch q f

/-- The binade exponent of `q`, searched over `[-32, 64]` — ample for
every value arising in `to_datetime` (smallest nonzero value is
`1 / 40960 > 2^-16`, largest below `2^49`; no subnormals, no
overflow). -/
def f64exp (q : ℚ) : Int := f64expSearch q 97

/-- Round a nonnegative rational to the IEEE binary64 value grid:
the nearest multiple of `2^(e-52)` in the binade `[2^e, 2^(e+1))`,
ties to even. -/
def roundF64 (q : ℚ) : ℚ :=
  if q = 0 then 0
  else (roundHalfEven (q * (2 : ℚ) ^ ((52 : Int) - f64exp q)) : ℚ) *
    (2 : ℚ) ^ (f64exp q - 52)

/-- The millisecond delta computed by `to_datetime`: the binary64
evaluation of `ts_upper * 1.25 + ts_lower / 40960`, truncated (`as
i64`; the value is nonnegative, so truncation is the floor). -/
def Timestamp.to_datetime_delta_ms (t : Timestamp) : Int :=
  Int.floor (roundF64 (roundF64 (((t.ts >>> 16 : Nat) : ℚ) * (5 / 4)) +
    roundF64 (((t.ts &&& 0xffff : Nat) : ℚ) / 40960)))

/-- `to_datetime` as a point on the millisecond timeline: the fixed
epoch plus the computed delta. -/
def Timestamp.to_datetime_unix_ms (t : Timestamp) : Int :=
  epoch_1980_01_06_unix_ms + t.to_datetime_delta_ms

/-- Modelled from the spec: the delta is `upper * 1.25 ms` plus
`lower / 40960` SECONDS (that is, `lower * 1000 / 40960` milliseconds),
truncated to whole milliseconds and added to the same epoch. -/
def spec_to_datetime_unix_ms (t : Timestamp) : Int :=
  epoch_1980_01_06_unix_ms +
    Int.floor (((t.ts >>> 16 : Nat) : ℚ) * (5 / 4) +
      ((t.ts &&& 0xffff : Nat) : ℚ) * 1000 / 40960)

/-! ## LTE RRC version ranges -/

/-- The `id_pat = "0..=4"` range (`ext_header_version` is a `u8`). -/
abbrev inV0Range (v : Nat) : Prop := v ≤ 4

/-- The `id_pat = "5..=7"` range. -/
abbrev inV5Range (v : Nat) : Prop := 5 ≤ v ∧ v ≤ 7

/-- The `id_pat = "8..=24"` range. -/
abbrev inV8Range (v : Nat) : Prop := 8 ≤ v ∧ v ≤ 24

/-- The `id_pat = "25.."` range. -/
abbrev inV25Range (v : Nat) : Prop := 25 ≤ v

/-! ## The diag read thread's container-processing step
(`run_diag_read_thread` in `src/bin/src/diag.rs`)

The `Ok(Some(container))` arm of the select loop is modelled as a pure
step function.  Collaborators (the analyzer, the shared store, the
bounded UI channel) are oracles in a `PipelineEnv`: each fallible
operation has an outcome flag, and `ui_channel_ok = false` models a
send that cannot be delivered (channel full or closed).  A Rust
`.expect(...)` is modelled as a `panicked` outcome that cuts the step
short; `let _ = ...` send failures are recorded as dropped. -/

/-- A heuristic warning: message and severity, abstracted to ids. -/
structure HeuristicWarning where
  message : Nat
  severity : Nat
deriving DecidableEq, Repr

structure StoreEntry where
  qmdl_size_bytes : Nat
  analysis_size_bytes : Nat
deriving DecidableEq, Repr

structure QmdlStore where
  current_entry : Option Nat
  entries : List StoreEntry
deriving DecidableEq, Repr

/-- Pipeline state: the attached QMDL writer (modelled by its
`total_written` counter) and whether an analysis writer is attached.
`Idle` is `⟨none, false⟩`. -/
structure PipelineState where
  maybe_qmdl_writer : Option Nat
  maybe_analysis_writer : Bool
deriving DecidableEq, Repr

structure PipelineEnv where
  store : QmdlStore
  qmdl_write_ok : Bool
  analyze_ok : Bool
  analysis_file_len : Nat
  heuristic_warning : Bool
  warning_count : Nat
  last_warning : Option HeuristicWarning
  update_analysis_size_ok : Bool
  update_qmdl_size_ok : Bool
  update_last_message_time_ok : Bool
  ui_channel_ok : Bool
deriving DecidableEq, Repr

/-- The UI notifications of `framebuffer::DisplayState` the loop can
emit. -/
inductive Notification
  | AnalysisWarning (message severity : Nat)
  | WarningDetected
  | DetailedStatus (qmdl_size_bytes analysis_size_bytes num_warnings : Nat)
      (last_warning : Option Nat)
deriving DecidableEq, Repr

inductive StoreUpdate
  | analysisSize (index n : Nat)
  | qmdlSize (index n : Nat)
  | lastMessageTime (index : Nat)
deriving DecidableEq, Repr

inductive StepOutcome
  | ok
  | panicked (msg : String)
deriving DecidableEq, Repr

/-- Everything one iteration did: the state it leaves, the bytes it
appended to the recording, whether the analyzer ran, the store-metadata
updates it performed, the notifications it delivered or dropped, and
whether it panicked. -/
structure StepResult where
  state : PipelineState
  qmdl_bytes_written : Nat
  analyzer_invoked : Bool
  store_updates : List StoreUpdate
  notifications_sent : List Notification
  notifications_dropped : List Notification
  outcome : StepOutcome
deriving DecidableEq, Repr

/-- Lines 140-176: the qmdl-size tracking block, entered only with a
writer attached; a changed size is written back, the last-message-time
update failure is only logged, and the detailed-status send is
explicitly best-effort (`let _ = send_detailed_status_direct(...)`). -/
def sizeUpdateBlock (env : PipelineEnv) (writer : Option Nat) :
    List StoreUpdate × List Notification × List Notification × StepOutcome :=
  match writer with
  | none => ([], [], [], StepOutcome.ok)
  | some updated_size =>
    match env.store.current_entry with
    | none => ([], [], [], StepOutcome.ok)
    | some index =>
      match env.store.entries[index]? with
      | none => ([], [], [], StepOutcome.panicked "index out of bounds")
      | some entry =>
        if entry.qmdl_size_bytes = updated_size then ([], [], [], StepOutcome.ok)
        else if env.update_qmdl_size_ok then
          let ups := StoreUpdate.qmdlSize index updated_size ::
            (if env.update_last_message_time_ok then
              [StoreUpdate.lastMessageTime index] else [])
          let note := Notification.DetailedStatus updated_size
            env.analysis_file_len env.warning_count
            (env.last_warning.map HeuristicWarning.message)
          if env.ui_channel_ok then (ups, [note], [], StepOutcome.ok)
          else (ups, [], [note], StepOutcome.ok)
        else ([], [], [], StepOutcome.panicked "failed to update qmdl file size")

/-- Lines 124-138: the warning-notification block.  Both sends use
`.expect(...)`, so an undeliverable notification is a panic. -/
def warningBlock (env : PipelineEnv) :
    List Notification × StepOutcome :=
  if env.heuristic_warning then
    match env.last_warning with
    | some w =>
      if env.ui_channel_ok then
        ([Notification.AnalysisWarning w.message w.severity], StepOutcome.ok)
      else
        ([], StepOutcome.panicked "could not send ui update message with warning details")
    | none =>
      if env.ui_channel_ok then
        ([Notification.WarningDetected], StepOutcome.ok)
      else
        ([], StepOutcome.panicked "could not send ui update message")
  else ([], StepOutcome.ok)

/-- Lines 109-177: the analysis block, entered only with an analysis
writer attached (`if let Some(analysis_writer) = ...`). -/
def analysisBlock (env : PipelineEnv) (st : PipelineState) (written : Nat) :
    StepResult :=
  if st.maybe_analysis_writer then
    if env.analyze_ok then
      match env.store.current_entry with
      | none =>
        ⟨st, written, true, [], [], [],
          StepOutcome.panicked
            "DiagDevice had qmdl_writer, but QmdlStore had no current entry"⟩
      | some index =>
        if env.update_analysis_size_ok then
          let base := [StoreUpdate.analysisSize index env.analysis_file_len]
          match warningBlock env with
          | (_, StepOutcome.panicked msg) =>
            ⟨st, written, true, base, [], [], StepOutcome.panicked msg⟩
          | (warnSent, StepOutcome.ok) =>
            match sizeUpdateBlock env st.maybe_qmdl_writer with
            | (ups, sent, dropped, StepOutcome.panicked msg) =>
              ⟨st, written, true, base ++ ups, warnSent ++ sent,
                dropped, StepOutcome.panicked msg⟩
            | (ups, sent, dropped, StepOutcome.ok) =>
              ⟨st, written, true, base ++ ups, warnSent ++ sent,
                dropped, StepOutcome.ok⟩
        else
          ⟨st, written, true, [], [], [],
            StepOutcome.panicked "failed to update analysis file size"⟩
    else
      ⟨st, written, true, [], [], [],
        StepOutcome.panicked "failed to analyze container"⟩
  else
    ⟨st, written, false, [], [], [], StepOutcome.ok⟩

/-- Lines 104-177: one `Ok(Some(container))` iteration.  The container
is written to the recording iff a writer is attached (a failed write is
a panic via `.expect`), then the analysis block runs. -/
def handleContainer (env : PipelineEnv) (st : PipelineState)
    (container_size : Nat) : StepResult :=
  match st.maybe_qmdl_writer with
  | some total_written =>
    if env.qmdl_write_ok then
      analysisBlock env ⟨some (total_written + container_size),
        st.maybe_analysis_writer⟩ container_size
    else
      ⟨st, 0, false, [], [], [],
        StepOutcome.panicked "failed to write to qmdl file"⟩
  | none => analysisBlock env st 0

/-! ## Parser evaluation and consumption lemmas -/

theorem parser_bind_apply {α β : Type} (p : Parser α) (f : α → Parser β)
    (bs : List Nat) :
    (p >>= f) bs =
      match p bs with
      | some (a, r) => f a r
      | none => none := rfl

theorem parser_pure_apply {α : Type} (a : α) (bs : List Nat) :
    (pure a : Parser α) bs = some (a, bs) := rfl

theorem pfail_apply {α : Type} (bs : List Nat) : (pfail : Parser α) bs = none := rfl

theorem parser_bind_eq_some {α β : Type} {p : Parser α} {f : α → Parser β}
    {bs : List Nat} {x : β × List Nat} :
    (p >>= f) bs = some x ↔ ∃ a m, p bs = some (a, m) ∧ f a m = some x := by
  rw [parser_bind_apply]
  cases h : p bs with
  | none => simp
  | some ar =>
    cases ar with
    | mk a m =>
      simp only [Option.some.injEq, Prod.mk.injEq]
      constructor
      · intro hx
        exact ⟨a, m, ⟨rfl, rfl⟩, hx⟩
      · rintro ⟨a1, m1, ⟨rfl, rfl⟩, hx⟩
        exact hx

/-- A parser is consuming when the unread rest it returns is a suffix
of the input: decoding never mis-aligns or resurrects skipped bytes. -/
def Consuming {α : Type} (p : Parser α) : Prop :=
  ∀ bs a r, p bs = some (a, r) → List.IsSuffix r bs

theorem consuming_pure {α : Type} (a : α) : Consuming (pure a : Parser α) := by
  intro bs b r h
  rw [parser_pure_apply] at h
  cases h
  exact List.suffix_refl bs

theorem consuming_pfail {α : Type} : Consuming (pfail : Parser α) := by
  intro bs b r h
  cases h

theorem consuming_bind {α β : Type} {p : Parser α} {f : α → Parser β}
    (hp : Consuming p) (hf : ∀ a, Consuming (f a)) : Consuming (p >>= f) := by
  intro bs b r h
  rw [parser_bind_eq_some] at h
  obtain ⟨a, m, ha, hm⟩ := h
  exact (hf a m b r hm).trans (hp bs a m ha)

theorem consuming_readU8 : Consuming readU8 := by
  intro bs a r h
  unfold readU8 at h
  split at h
  · cases h
  · cases h
    refine ⟨[_], rfl⟩

theorem consuming_readU16le : Consuming readU16le := by
  intro bs a r h
  unfold readU16le at h
  split at h
  · cases h
    refine ⟨[_, _], rfl⟩
  · cases h

theorem consuming_readU32le : Consuming readU32le := by
  intro bs a r h
  unfold readU32le at h
  split at h
  · cases h
    refine ⟨[_, _, _, _], rfl⟩
  · cases h

theorem consuming_readU64le : Consuming readU64le := by
  intro bs a r h
  unfold readU64le at h
  split at h
  · cases h
    refine ⟨[_, _, _, _, _, _, _, _], rfl⟩
  · cases h

theorem consuming_readBytes (n : Nat) : Consuming (readBytes n) := by
  intro bs a r h
  unfold readBytes at h
  split at h
  · cases h
    exact List.drop_suffix n bs
  · cases h

theorem consuming_parseLteRrcV0 : Consuming parseLteRrcV0 := by
  unfold parseLteRrcV0
  exact consuming_bind consuming_readU8 fun _ =>
    consuming_bind consuming_readU8 fun _ =>
    consuming_bind consuming_readU8 fun _ =>
    consuming_bind consuming_readU16le fun _ =>
    consuming_bind consuming_readU16le fun _ =>
    consuming_bind consuming_readU16le fun _ =>
    consuming_bind consuming_readU8 fun _ =>
    consuming_bind consuming_readU16le fun len =>
    consuming_bind (consuming_readBytes len) fun _ =>
    consuming_pure _

theorem consuming_parseLteRrcV5 : Consuming parseLteRrcV5 := by
  unfold parseLteRrcV5
  exact consuming_bind consuming_readU8 fun _ =>
    consuming_bind consuming_readU8 fun _ =>
    consuming_bind consuming_readU8 fun _ =>
    consuming_bind consuming_readU16le fun _ =>
    consuming_bind consuming_readU16le fun _ =>
    consuming_bind consuming_readU16le fun _ =>
    consuming_bind consuming_readU8 fun _ =>
    consuming_bind consuming_readU32le fun _ =>
    consuming_bind consuming_readU16le fun len =>
    consuming_bind (consuming_readBytes len) fun _ =>
    consuming_pure _

theorem consuming_parseLteRrcV8 : Consuming parseLteRrcV8 := by
  unfold parseLteRrcV8
  exact consuming_bind consuming_readU8 fun _ =>
    consuming_bind consuming_readU8 fun _ =>
    consuming_bind consuming_readU8 fun _ =>
    consuming_bind consuming_readU16le fun _ =>
    consuming_bind consuming_readU32le fun _ =>
    consuming_bind consuming_readU16le fun _ =>
    consuming_bind consuming_readU8 fun _ =>
    consuming_bind consuming_readU32le fun _ =>
    consuming_bind consuming_readU16le fun len =>
    consuming_bind (consuming_readBytes len) fun _ =>
    consuming_pure _

theorem consuming_parseLteRrcV25 : Consuming parseLteRrcV25 := by
  unfold parseLteRrcV25
  exact consuming_bind consuming_readU8 fun _ =>
    consuming_bind consuming_readU8 fun _ =>
    consuming_bind consuming_readU8 fun _ =>
    consuming_bind consuming_readU8 fun _ =>
    consuming_bind consuming_readU8 fun _ =>
    consuming_bind consuming_readU16le fun _ =>
    consuming_bind consuming_readU32le fun _ =>
    consuming_bind consuming_readU16le fun _ =>
    consuming_bind consuming_readU8 fun _ =>
    consuming_bind consuming_readU32le fun _ =>
    consuming_bind consuming_readU16le fun len =>
    consuming_bind (consuming_readBytes len) fun _ =>
    consuming_pure _

theorem consuming_parseLteRrcOtaPacket (v : Nat) :
    Consuming (parseLteRrcOtaPacket v) := by
  unfold parseLteRrcOtaPacket
  repeat' split
  · exact consuming_parseLteRrcV0
  · exact consuming_parseLteRrcV5
  · exact consuming_parseLteRrcV8
  · exact consuming_parseLteRrcV25
  · exact consuming_pfail

theorem consuming_parseWcdmaSignallingMessage :
    Consuming parseWcdmaSignallingMessage := by
  unfold parseWcdmaSignallingMessage
  exact consuming_bind consuming_readU8 fun _ =>
    consuming_bind consuming_readU8 fun _ =>
    consuming_bind consuming_readU16le fun len =>
    consuming_bind (consuming_readBytes len) fun _ =>
    consuming_pure _

theorem consuming_parseGsmRrSignallingMessage :
    Consuming parseGsmRrSignallingMessage := by
  unfold parseGsmRrSignallingMessage
  exact consuming_bind consuming_readU8 fun _ =>
    consuming_bind consuming_readU8 fun _ =>
    consuming_bind consuming_readU8 fun len =>
    consuming_bind (consuming_readBytes len) fun _ =>
    consuming_pure _

theorem consuming_parseGprsMacSignallingMessage :
    Consuming parseGprsMacSignallingMessage := by
  unfold parseGprsMacSignallingMessage
  exact consuming_bind consuming_readU8 fun _ =>
    consuming_bind consuming_readU8 fun _ =>
    consuming_bind consuming_readU8 fun len =>
    consuming_bind (consuming_readBytes len) fun _ =>
    consuming_pure _

theorem consuming_parseLteRrcOtaMessage : Consuming parseLteRrcOtaMessage := by
  unfold parseLteRrcOtaMessage
  exact consuming_bind consuming_readU8 fun v =>
    consuming_bind (consuming_parseLteRrcOtaPacket v) fun _ =>
    consuming_pure _

theorem consuming_parseNas4GMessage (hdr_len : Nat) :
    Consuming (parseNas4GMessage hdr_len) := by
  unfold parseNas4GMessage
  exact consuming_bind consuming_readU8 fun _ =>
    consuming_bind consuming_readU8 fun _ =>
    consuming_bind consuming_readU8 fun _ =>
    consuming_bind consuming_readU8 fun _ =>
    consuming_bind (consuming_readBytes _) fun _ =>
    consuming_pure _

theorem consuming_parseIpTraffic (hdr_len : Nat) :
    Consuming (parseIpTraffic hdr_len) := by
  unfold parseIpTraffic
  exact consuming_bind (consuming_readBytes _) fun _ => consuming_pure _

theorem consuming_parseUmtsNasOtaMessage : Consuming parseUmtsNasOtaMessage := by
  unfold parseUmtsNasOtaMessage
  exact consuming_bind consuming_readU8 fun _ =>
    consuming_bind consuming_readU32le fun len =>
    consuming_bind (consuming_readBytes len) fun _ =>
    consuming_pure _

theorem consuming_parseNrRrcOtaMessage (hdr_len : Nat) :
    Consuming (parseNrRrcOtaMessage hdr_len) := by
  unfold parseNrRrcOtaMessage
  exact consuming_bind (consuming_readBytes _) fun _ => consuming_pure _

theorem consuming_parseLogBody (log_type hdr_len : Nat) :
    Consuming (parseLogBody log_type hdr_len) := by
  unfold parseLogBody
  repeat' split
  · exact consuming_parseWcdmaSignallingMessage
  · exact consuming_parseGsmRrSignallingMessage
  · exact consuming_parseGprsMacSignallingMessage
  · exact consuming_parseLteRrcOtaMessage
  · exact consuming_parseNas4GMessage _
  · exact consuming_parseIpTraffic _
  · exact consuming_parseUmtsNasOtaMessage
  · exact consuming_parseNrRrcOtaMessage _
  · exact consuming_pfail

theorem consuming_readU32leList (n : Nat) : Consuming (readU32leList n) := by
  induction n with
  | zero => exact consuming_pure _
  | succ k ih =>
    unfold readU32leList
    exact consuming_bind consuming_readU32le fun _ =>
      consuming_bind ih fun _ =>
      consuming_pure _

theorem consuming_parseLogConfigResponse (subopcode : Nat) :
    Consuming (parseLogConfigResponse subopcode) := by
  unfold parseLogConfigResponse
  repeat' split
  · exact consuming_bind (consuming_readU32leList 16) fun _ => consuming_pure _
  · exact consuming_pure _
  · exact consuming_pfail

theorem consuming_parseResponsePayload (opcode subopcode : Nat) :
    Consuming (parseResponsePayload opcode subopcode) := by
  unfold parseResponsePayload
  repeat' split
  · exact consuming_bind (consuming_parseLogConfigResponse _) fun _ =>
      consuming_pure _
  · exact consuming_pfail

theorem consuming_parseLogVariant : Consuming parseLogVariant := by
  unfold parseLogVariant
  exact consuming_bind consuming_readU8 fun _ =>
    consuming_bind consuming_readU16le fun _ =>
    consuming_bind consuming_readU16le fun inner =>
    consuming_bind consuming_readU16le fun lt =>
    consuming_bind consuming_readU64le fun _ =>
    consuming_bind (consuming_parseLogBody lt (wsub16 inner 12)) fun _ =>
    consuming_pure _

theorem consuming_parseResponseVariant : Consuming parseResponseVariant := by
  unfold parseResponseVariant
  exact consuming_bind consuming_readU32le fun opc =>
    consuming_bind consuming_readU32le fun sub =>
    consuming_bind consuming_readU32le fun _ =>
    consuming_bind (consuming_parseResponsePayload opc sub) fun _ =>
    consuming_pure _

/-- A parser consumes at least `n` bytes whenever it succeeds. -/
def ConsumesAtLeast (n : Nat) {α : Type} (p : Parser α) : Prop :=
  ∀ bs a r, p bs = some (a, r) → n + r.length ≤ bs.length

theorem consumesAtLeast_of_consuming {α : Type} {p : Parser α}
    (h : Consuming p) : ConsumesAtLeast 0 p := by
  intro bs a r hp
  have := (h bs a r hp).length_le
  omega

theorem consumesAtLeast_bind {α β : Type} {p : Parser α} {f : α → Parser β}
    {m n : Nat} (hp : ConsumesAtLeast m p) (hf : ∀ a, ConsumesAtLeast n (f a)) :
    ConsumesAtLeast (m + n) (p >>= f) := by
  intro bs b r h
  rw [parser_bind_eq_some] at h
  obtain ⟨a, mid, ha, hm⟩ := h
  have h1 := hp bs a mid ha
  have h2 := hf a mid b r hm
  omega

theorem consumesAtLeast_readU8 : ConsumesAtLeast 1 readU8 := by
  intro bs a r h
  unfold readU8 at h
  split at h
  · cases h
  · cases h
    simp
    omega

theorem consumesAtLeast_readU16le : ConsumesAtLeast 2 readU16le := by
  intro bs a r h
  unfold readU16le at h
  split at h
  · cases h
    simp
    omega
  · cases h

theorem consumesAtLeast_readU32le : ConsumesAtLeast 4 readU32le := by
  intro bs a r h
  unfold readU32le at h
  split at h
  · cases h
    simp
    omega
  · cases h

theorem consumesAtLeast_readU64le : ConsumesAtLeast 8 readU64le := by
  intro bs a r h
  unfold readU64le at h
  split at h
  · cases h
    simp
    omega
  · cases h

theorem consumesAtLeast_parseLogVariant : ConsumesAtLeast 15 parseLogVariant := by
  unfold parseLogVariant
  exact consumesAtLeast_bind consumesAtLeast_readU8 fun _ =>
    consumesAtLeast_bind consumesAtLeast_readU16le fun _ =>
    consumesAtLeast_bind consumesAtLeast_readU16le fun inner =>
    consumesAtLeast_bind consumesAtLeast_readU16le fun lt =>
    consumesAtLeast_bind consumesAtLeast_readU64le fun _ =>
    consumesAtLeast_bind
      (consumesAtLeast_of_consuming (consuming_parseLogBody lt (wsub16 inner 12)))
      fun _ => consumesAtLeast_of_consuming (consuming_pure _)

theorem consumesAtLeast_parseResponseVariant :
    ConsumesAtLeast 12 parseResponseVariant := by
  unfold parseResponseVariant
  exact consumesAtLeast_bind consumesAtLeast_readU32le fun opc =>
    consumesAtLeast_bind consumesAtLeast_readU32le fun sub =>
    consumesAtLeast_bind consumesAtLeast_readU32le fun _ =>
    consumesAtLeast_bind
      (consumesAtLeast_of_consuming (consuming_parseResponsePayload opc sub))
      fun _ => consumesAtLeast_of_consuming (consuming_pure _)

theorem consuming_parseMessage : Consuming parseMessage := by
  intro bs a r h
  unfold parseMessage at h
  cases hb : readU8 bs with
  | none => rw [hb] at h; cases h
  | some tr =>
    rw [hb] at h
    obtain ⟨tag, r1⟩ := tr
    have h2 : (if tag = 16 then parseLogVariant r1 else parseResponseVariant bs) =
        some (a, r) := h
    by_cases ht : tag = 16
    · rw [if_pos ht] at h2
      exact (consuming_parseLogVariant r1 a r h2).trans (consuming_readU8 bs tag r1 hb)
    · rw [if_neg ht] at h2
      exact consuming_parseResponseVariant bs a r h2

theorem readU8_length {bs : List Nat} {a : Nat} {r : List Nat}
    (h : readU8 bs = some (a, r)) : bs.length = r.length + 1 := by
  unfold readU8 at h
  split at h
  · cases h
  · cases h
    simp

theorem parseMessage_consumes_at_least_12 :
    ∀ bs a r, parseMessage bs = some (a, r) → 12 + r.length ≤ bs.length := by
  intro bs a r h
  unfold parseMessage at h
  cases hb : readU8 bs with
  | none => rw [hb] at h; cases h
  | some tr =>
    rw [hb] at h
    obtain ⟨tag, r1⟩ := tr
    have h2 : (if tag = 16 then parseLogVariant r1 else parseResponseVariant bs) =
        some (a, r) := h
    have hlen := readU8_length hb
    by_cases ht : tag = 16
    · rw [if_pos ht] at h2
      have := consumesAtLeast_parseLogVariant r1 a r h2
      omega
    · rw [if_neg ht] at h2
      exact consumesAtLeast_parseResponseVariant bs a r h2

/-- Recombining the four little-endian digits of a `u32` value below
`2^32` gives the value back. -/
theorem readU32le_u32le (v : Nat) (hv : v < 4294967296) (rest : List Nat) :
    readU32le (u32le v ++ rest) = some (v, rest) := by
  unfold u32le readU32le
  simp only [List.cons_append, List.nil_append, Option.some.injEq, Prod.mk.injEq]
  refine ⟨by omega, ?_⟩
  simp

theorem readU32le_u32le_nil (v : Nat) (hv : v < 4294967296) :
    readU32le (u32le v) = some (v, []) := by
  have h := readU32le_u32le v hv []
  simpa using h

/-! ## Claim theorems -/

set_option maxRecDepth 20000 in
/-- C2: decoding the 42-byte reference sequence yields a `Log` with
`log_type = 0xb0c0`, raw timestamp `72659535985485082`, and a `V8`
LTE RRC body with `earfcn = 2050`, `sfn_subfn = 4057` (so
`get_sfn = 253` and `get_subfn = 9`) and the 7-byte payload. -/
theorem C2_log_record_decode :
    parseMessage [16, 0, 38, 0, 38, 0, 192, 176, 26, 165, 245, 135, 118, 35,
        2, 1, 20, 14, 48, 0, 160, 0, 2, 8, 0, 0, 217, 15, 5, 0, 0, 0, 0, 7, 0,
        64, 1, 238, 173, 213, 77, 208] =
      some (Message.Log 0 38 38 0xb0c0 ⟨72659535985485082⟩
        (LogBody.LteRrcOtaMessage 20
          (LteRrcOtaPacket.V8 14 48 0 160 2050 4057 5 0 7
            [0x40, 0x1, 0xee, 0xad, 0xd5, 0x4d, 0xd0])), []) ∧
    (LteRrcOtaPacket.V8 14 48 0 160 2050 4057 5 0 7
      [0x40, 0x1, 0xee, 0xad, 0xd5, 0x4d, 0xd0]).get_sfn = 253 ∧
    (LteRrcOtaPacket.V8 14 48 0 160 2050 4057 5 0 7
      [0x40, 0x1, 0xee, 0xad, 0xd5, 0x4d, 0xd0]).get_subfn = 9 :=
  ⟨by decide, by decide, by decide⟩

/-- C4: for every packet of any of the four variants,
`get_sfn * 16 + get_subfn` reconstructs the raw `sfn_subfn` field. -/
theorem C4_sfn_subfn_reconstruction (p : LteRrcOtaPacket) :
    p.get_sfn * 16 + p.get_subfn = p.get_sfn_subfn := by
  have key : ∀ s : Nat, s >>> 4 * 16 + (s &&& 15) = s := by
    intro s
    have h : s &&& (2 ^ 4 - 1) = s % 2 ^ 4 := Nat.and_pow_two_sub_one_eq_mod s 4
    norm_num at h
    rw [h]
    omega
  unfold LteRrcOtaPacket.get_sfn LteRrcOtaPacket.get_subfn
  exact key p.get_sfn_subfn

set_option maxRecDepth 20000 in
/-- C3: the four `ext_header_version` ranges are mutually exclusive and
exhaustive over 0..=255, and the decoder dispatches each range to its
variant parser, so variant selection never falls through. -/
theorem C3_lte_rrc_version_ranges :
    (∀ v : Fin 256,
      (inV0Range v.val ∧ ¬inV5Range v.val ∧ ¬inV8Range v.val ∧ ¬inV25Range v.val) ∨
      (¬inV0Range v.val ∧ inV5Range v.val ∧ ¬inV8Range v.val ∧ ¬inV25Range v.val) ∨
      (¬inV0Range v.val ∧ ¬inV5Range v.val ∧ inV8Range v.val ∧ ¬inV25Range v.val) ∨
      (¬inV0Range v.val ∧ ¬inV5Range v.val ∧ ¬inV8Range v.val ∧ inV25Range v.val)) ∧
    (∀ v : Nat,
      (inV0Range v → parseLteRrcOtaPacket v = parseLteRrcV0) ∧
      (inV5Range v → parseLteRrcOtaPacket v = parseLteRrcV5) ∧
      (inV8Range v → parseLteRrcOtaPacket v = parseLteRrcV8) ∧
      (inV25Range v → parseLteRrcOtaPacket v = parseLteRrcV25)) := by
  constructor
  · decide
  · intro v
    refine ⟨fun hr => ?_, fun hr => ?_, fun hr => ?_, fun hr => ?_⟩ <;>
      unfold parseLteRrcOtaPacket
    · rw [if_pos hr]
    · rw [if_neg (by omega), if_pos hr]
    · rw [if_neg (by omega), if_neg (by omega), if_pos hr]
    · rw [if_neg (by omega), if_neg (by omega), if_neg (by omega), if_pos hr]

theorem C3_lte_rrc_version_ranges_witness :
    parseLteRrcOtaPacket 20 = parseLteRrcV8 :=
  (C3_lte_rrc_version_ranges.2 20).2.2.1 (by decide)

/-- C10: encode-then-decode is the identity for `UserSpace` and for
`Other x` with `x ≠ 32`, but `Other 32` encodes to the same four bytes
as `UserSpace` and decodes back to `UserSpace`: the encoding is not
injective. -/
theorem C10_datatype_roundtrip :
    parseDataType (encodeDataType DataType.UserSpace) =
      some (DataType.UserSpace, []) ∧
    (∀ x, x < 4294967296 → x ≠ 32 →
      parseDataType (encodeDataType (DataType.Other x)) =
        some (DataType.Other x, [])) ∧
    parseDataType (encodeDataType (DataType.Other 32)) =
      some (DataType.UserSpace, []) ∧
    encodeDataType (DataType.Other 32) = encodeDataType DataType.UserSpace := by
  refine ⟨by decide, ?_, by decide, by decide⟩
  intro x hx hne
  unfold parseDataType encodeDataType
  rw [parser_bind_apply, readU32le_u32le_nil x hx]
  dsimp only
  rw [if_neg hne]
  rfl

theorem C10_datatype_roundtrip_witness :
    parseDataType (encodeDataType (DataType.Other 7)) =
      some (DataType.Other 7, []) :=
  C10_datatype_roundtrip.2.1 7 (by decide) (by decide)

/-- C7: decoding one `Message` is total and scoped: on success the
unread rest is a suffix of the input (no mis-aligned read); a buffer
shorter than the 12-byte minimum is a decode error; an unknown
`log_type` is a decode error; a blob whose declared length exceeds the
available bytes is a decode error; and the per-blob decode results of a
container are each a function of that blob alone, so one malformed blob
cannot disturb its siblings. -/
theorem C7_message_decode_total_and_scoped :
    (∀ bs m rest, parseMessage bs = some (m, rest) → List.IsSuffix rest bs) ∧
    (∀ bs : List Nat, bs.length < 12 → parseMessage bs = none) ∧
    (∀ lt hdr : Nat, lt ∉ knownLogTypes → parseLogBody lt hdr = pfail) ∧
    (∀ (len : Nat) (rest : List Nat), len < 4294967296 → rest.length < len →
      parseHdlcEncapsulatedMessage (u32le len ++ rest) = none) ∧
    (∀ (c : MessagesContainer) (i : Nat),
      (decodeContainerMessages c)[i]? =
        (c.messages[i]?).map fun m => (parseMessage m.data).map Prod.fst) := by
  refine ⟨consuming_parseMessage, ?_, ?_, ?_, ?_⟩
  · intro bs hlen
    cases h : parseMessage bs with
    | none => rfl
    | some x =>
      obtain ⟨a, r⟩ := x
      have := parseMessage_consumes_at_least_12 bs a r h
      omega
  · intro lt hdr hmem
    simp only [knownLogTypes, List.mem_cons, List.not_mem_nil, or_false,
      not_or] at hmem
    obtain ⟨h1, h2, h3, h4, h5, h6, h7, h8, h9, h10, h11⟩ := hmem
    unfold parseLogBody
    rw [if_neg h1, if_neg h2, if_neg h3, if_neg h4,
      if_neg (by simp [h5, h6, h7, h8]), if_neg h9, if_neg h10, if_neg h11]
  · intro len rest hlen hr
    unfold parseHdlcEncapsulatedMessage
    rw [parser_bind_apply, readU32le_u32le len hlen]
    dsimp only
    rw [parser_bind_apply]
    unfold readBytes
    rw [if_neg (by omega)]
  · intro c i
    unfold decodeContainerMessages
    exact List.getElem?_map _ c.messages i

theorem C7_message_decode_total_and_scoped_witness :
    List.IsSuffix [] [115, 0, 0, 0, 3, 0, 0, 0, 0, 0, 0, 0] ∧
    parseMessage [1, 2, 3] = none ∧
    parseLogBody 5 7 = pfail ∧
    parseHdlcEncapsulatedMessage (u32le 3 ++ [9]) = none :=
  ⟨C7_message_decode_total_and_scoped.1 [115, 0, 0, 0, 3, 0, 0, 0, 0, 0, 0, 0]
      (Message.Response 115 3 0 (ResponsePayload.LogConfig LogConfigResponse.SetMask))
      [] (by decide),
   C7_message_decode_total_and_scoped.2.1 [1, 2, 3] (by decide),
   C7_message_decode_total_and_scoped.2.2.1 5 7 (by decide),
   C7_message_decode_total_and_scoped.2.2.2.1 3 [9] (by decide) (by decide)⟩

/-- C6 counterexample: taking the claim at the letter — every encoding
with `use_mdm = true` places four `0xFF` bytes after the tag — fails at
`mdm_field = 0`: the code serializes the `mdm_field` value itself,
which is the all-ones sentinel only when it is -1. -/
theorem C6_counterexample_mdm_field_value :
    encodeRequestContainer ⟨DataType.UserSpace, true, 0, [1, 2, 3, 4]⟩ =
      [32, 0, 0, 0, 0, 0, 0, 0, 1, 2, 3, 4] ∧
    ¬ encodeRequestContainer ⟨DataType.UserSpace, true, 0, [1, 2, 3, 4]⟩ =
      [32, 0, 0, 0, 255, 255, 255, 255, 1, 2, 3, 4] :=
  ⟨by decide, by decide⟩

/-- C6 amended: encoding always emits the 4-byte tag first; with
`use_mdm = false` the HDLC payload follows immediately; with
`use_mdm = true` the 4-byte little-endian `mdm_field` follows the tag
(all-ones exactly when `mdm_field = -1`, the value used at every
construction site) and then the payload; `use_mdm` itself is never
serialized. -/
theorem C6_request_container_layout (dt : DataType) (um : Bool) (mf : Int)
    (hdlc : List Nat) :
    (encodeDataType dt).length = 4 ∧
    (um = false → encodeRequestContainer ⟨dt, um, mf, hdlc⟩ =
      encodeDataType dt ++ hdlc) ∧
    (um = true → encodeRequestContainer ⟨dt, um, mf, hdlc⟩ =
      encodeDataType dt ++ i32le mf ++ hdlc) ∧
    (i32le mf).length = 4 ∧
    (mf = -1 → i32le mf = [255, 255, 255, 255]) := by
  refine ⟨?_, ?_, ?_, ?_, ?_⟩
  · cases dt <;> rfl
  · intro h
    subst h
    simp [encodeRequestContainer]
  · intro h
    subst h
    simp [encodeRequestContainer]
  · rfl
  · intro h
    subst h
    decide

theorem C6_request_container_layout_witness :
    encodeRequestContainer ⟨DataType.UserSpace, true, -1, [1, 2, 3, 4]⟩ =
      encodeDataType DataType.UserSpace ++ i32le (-1) ++ [1, 2, 3, 4] ∧
    encodeRequestContainer ⟨DataType.UserSpace, false, -1, [1, 2, 3, 4]⟩ =
      encodeDataType DataType.UserSpace ++ [1, 2, 3, 4] ∧
    i32le (-1) = [255, 255, 255, 255] :=
  ⟨(C6_request_container_layout DataType.UserSpace true (-1) [1, 2, 3, 4]).2.2.1 rfl,
   (C6_request_container_layout DataType.UserSpace false (-1) [1, 2, 3, 4]).2.1 rfl,
   (C6_request_container_layout DataType.UserSpace true (-1) [1, 2, 3, 4]).2.2.2.2 rfl⟩

/-- Floor of a ratio of naturals in the rationals is natural division. -/
theorem floor_natCast_div (n d : Nat) :
    Int.floor ((n : ℚ) / (d : ℚ)) = ((n / d : Nat) : Int) := by
  rw [Rat.floor_natCast_div_natCast n d]
  exact (Int.natCast_div n d).symm

/-- The spec-modelled value as a single natural division:
`upper * 1.25 + lower * 1000 / 40960 = (upper*6400 + lower*125) / 5120`. -/
theorem spec_to_datetime_closed_form (t : Timestamp) :
    spec_to_datetime_unix_ms t =
      epoch_1980_01_06_unix_ms +
        ((((t.ts >>> 16) * 6400 + (t.ts &&& 65535) * 125) / 5120 : Nat) : Int) := by
  unfold spec_to_datetime_unix_ms
  rw [← floor_natCast_div ((t.ts >>> 16) * 6400 + (t.ts &&& 65535) * 125) 5120]
  congr 1
  push_cast
  ring_nf

/-! ## Binary64 rounding lemmas -/

theorem roundF64_zero : roundF64 0 = 0 := by
  unfold roundF64
  rw [if_pos rfl]

theorem roundHalfEven_intCast (n : Int) : roundHalfEven ((n : Int) : ℚ) = n := by
  unfold roundHalfEven
  rw [Int.floor_intCast]
  norm_num

theorem roundHalfEven_eq_down (x : ℚ) (m : Int) (h1 : (m : ℚ) ≤ x)
    (h2 : x < m + 1) (h3 : x - m < 1 / 2) : roundHalfEven x = m := by
  unfold roundHalfEven
  rw [show Int.floor x = m from by rw [Int.floor_eq_iff]; exact ⟨h1, h2⟩, if_pos h3]

theorem roundHalfEven_eq_up (x : ℚ) (m : Int) (h1 : (m : ℚ) ≤ x)
    (h2 : x < m + 1) (h3 : 1 / 2 < x - m) : roundHalfEven x = m + 1 := by
  unfold roundHalfEven
  rw [show Int.floor x = m from by rw [Int.floor_eq_iff]; exact ⟨h1, h2⟩,
    if_neg (by linarith), if_pos h3]

theorem roundHalfEven_eq_tie_odd (x : ℚ) (m : Int) (h1 : (m : ℚ) ≤ x)
    (h2 : x < m + 1) (h3 : x - m = 1 / 2) (h4 : m % 2 = 1) :
    roundHalfEven x = m + 1 := by
  unfold roundHalfEven
  rw [show Int.floor x = m from by rw [Int.floor_eq_iff]; exact ⟨h1, h2⟩,
    if_neg (by linarith), if_neg (by linarith), if_neg (by omega)]

theorem f64expSearch_le_or (q : ℚ) (fuel : Nat) :
    f64expSearch q fuel = -32 ∨ (2 : ℚ) ^ (f64expSearch q fuel) ≤ q := by
  induction fuel with
  | zero => exact Or.inl rfl
  | succ f ih =>
    unfold f64expSearch
    split
    · right
      assumption
    · exact ih

theorem f64expSearch_ge (q : ℚ) (fuel : Nat) : -32 ≤ f64expSearch q fuel := by
  induction fuel with
  | zero => exact le_refl _
  | succ f ih =>
    unfold f64expSearch
    split
    · omega
    · exact ih

theorem f64exp_ge (q : ℚ) : -32 ≤ f64exp q := f64expSearch_ge q 97

/-- An upper bound on the value bounds the binade exponent. -/
theorem f64exp_le (q : ℚ) (c : Int) (hq : q < (2 : ℚ) ^ c) (hc : -31 ≤ c) :
    f64exp q ≤ c - 1 := by
  unfold f64exp
  rcases f64expSearch_le_or q 97 with h | h
  · rw [h]
    omega
  · by_contra hcon
    push_neg at hcon
    have hle : (2 : ℚ) ^ c ≤ (2 : ℚ) ^ (f64expSearch q 97) :=
      zpow_le_zpow_right₀ one_le_two (by omega)
    linarith

/-- The search finds the binade exponent when one is exhibited. -/
theorem f64expSearch_eq (q : ℚ) (e : Int) (h1 : (2 : ℚ) ^ e ≤ q)
    (h2 : q < (2 : ℚ) ^ (e + 1)) (h3 : -32 ≤ e) :
    ∀ f : Nat, e ≤ (f : Int) - 33 → f64expSearch q f = e := by
  intro f
  induction f with
  | zero =>
    intro hf
    omega
  | succ f ih =>
    intro hf
    unfold f64expSearch
    by_cases hcond : (2 : ℚ) ^ ((f : Int) - 32) ≤ q
    · rw [if_pos hcond]
      have hlt : (f : Int) - 32 < e + 1 := by
        by_contra hcon
        push_neg at hcon
        have := zpow_le_zpow_right₀ (one_le_two : (1 : ℚ) ≤ 2) hcon
        linarith
      push_cast at hf
      omega
    · rw [if_neg hcond]
      apply ih
      push_neg at hcond
      have hlt : e < (f : Int) - 32 := by
        by_contra hcon
        push_neg at hcon
        have := zpow_le_zpow_right₀ (one_le_two : (1 : ℚ) ≤ 2) hcon
        linarith
      omega

theorem f64exp_eq (q : ℚ) (e : Int) (h1 : (2 : ℚ) ^ e ≤ q)
    (h2 : q < (2 : ℚ) ^ (e + 1)) (h3 : -32 ≤ e) (h4 : e ≤ 64) :
    f64exp q = e :=
  f64expSearch_eq q e h1 h2 h3 97 (by omega)

/-- A value whose scaled significand is an integer is exactly
representable: rounding is the identity. -/
theorem roundF64_eq_self (q : ℚ) (n : Int)
    (h : q * (2 : ℚ) ^ ((52 : Int) - f64exp q) = (n : ℚ)) : roundF64 q = q := by
  by_cases h0 : q = 0
  · rw [h0, roundF64_zero]
  · unfold roundF64
    rw [if_neg h0, h, roundHalfEven_intCast, ← h, mul_assoc,
      ← zpow_add₀ (two_ne_zero : (2 : ℚ) ≠ 0),
      show ((52 : Int) - f64exp q) + (f64exp q - 52) = 0 from by omega,
      zpow_zero, mul_one]

/-- Every dyadic `m / 2^k` with a 53-bit numerator and moderate `k` is
exactly representable in binary64. -/
theorem roundF64_dyadic (m k : Nat) (hm : m < 2 ^ 53) (hk : k ≤ 30) :
    roundF64 ((m : ℚ) / 2 ^ k) = (m : ℚ) / 2 ^ k := by
  by_cases hm0 : m = 0
  · subst hm0
    have h : ((0 : Nat) : ℚ) / 2 ^ k = 0 := by
      push_cast
      simp
    rw [h, roundF64_zero]
  · have hmq : (0 : ℚ) < (m : ℚ) := by
      exact_mod_cast Nat.pos_of_ne_zero hm0
    have hq_pos : 0 < (m : ℚ) / 2 ^ k := by positivity
    have hup : (m : ℚ) / 2 ^ k < (2 : ℚ) ^ ((53 : Int) - k) := by
      rw [div_lt_iff₀ (by positivity : (0 : ℚ) < 2 ^ k)]
      have h2 : (2 : ℚ) ^ ((53 : Int) - k) * 2 ^ k = 2 ^ (53 : Nat) := by
        rw [show ((2 : ℚ) ^ (k : Nat)) = (2 : ℚ) ^ ((k : Nat) : Int) from
            (zpow_natCast 2 k).symm,
          ← zpow_add₀ (two_ne_zero : (2 : ℚ) ≠ 0),
          show ((53 : Int) - k) + (k : Int) = ((53 : Nat) : Int) from by omega,
          zpow_natCast]
      rw [h2]
      exact_mod_cast hm
    have he_le : f64exp ((m : ℚ) / 2 ^ k) ≤ (53 - (k : Int)) - 1 :=
      f64exp_le _ _ hup (by omega)
    have he_ge : -32 ≤ f64exp ((m : ℚ) / 2 ^ k) := f64exp_ge _
    set E := f64exp ((m : ℚ) / 2 ^ k) with hE
    have hnn : (0 : Int) ≤ 52 - E - k := by omega
    apply roundF64_eq_self _ ((m : Int) * 2 ^ ((52 - E - k).toNat))
    rw [← hE, Int.cast_mul, Int.cast_natCast, Int.cast_pow, Int.cast_ofNat]
    rw [show ((2 : ℚ) ^ (((52 - E - k).toNat : Nat))) =
        (2 : ℚ) ^ ((((52 - E - k).toNat : Nat)) : Int) from (zpow_natCast 2 _).symm,
      Int.toNat_of_nonneg hnn]
    rw [div_mul_eq_mul_div, div_eq_iff (by positivity : ((2 : ℚ) ^ (k : Nat)) ≠ 0),
      mul_assoc,
      show ((2 : ℚ) ^ (k : Nat)) = (2 : ℚ) ^ ((k : Nat) : Int) from
        (zpow_natCast 2 k).symm,
      ← zpow_add₀ (two_ne_zero : (2 : ℚ) ≠ 0),
      show (52 - E - (k : Int)) + (k : Int) = 52 - E from by omega]

/-- Evaluate one rounding step from an exhibited binade exponent and
rounded significand. -/
theorem roundF64_eval (q : ℚ) (e n : Int) (h0 : q ≠ 0)
    (h1 : (2 : ℚ) ^ e ≤ q) (h2 : q < (2 : ℚ) ^ (e + 1)) (h3 : -32 ≤ e)
    (h4 : e ≤ 64) (hn : roundHalfEven (q * (2 : ℚ) ^ ((52 : Int) - e)) = n) :
    roundF64 q = (n : ℚ) * (2 : ℚ) ^ (e - 52) := by
  unfold roundF64
  rw [if_neg h0, f64exp_eq q e h1 h2 h3 h4, hn]

/-- When the lower 16 bits are a multiple of 10240 every intermediate
binary64 value is an exact quarter-integer below `2^53`, so the
computed delta equals the exact natural division. -/
theorem to_datetime_delta_ms_exact (t : Timestamp) (hts : t.ts < 2 ^ 64)
    (hmod : (t.ts &&& 0xffff) % 10240 = 0) :
    t.to_datetime_delta_ms =
      ((((t.ts >>> 16) * 51200 + (t.ts &&& 0xffff)) / 40960 : Nat) : Int) := by
  have hl_le : t.ts &&& 0xffff ≤ 0xffff := Nat.and_le_right
  have hu_lt : t.ts >>> 16 < 2 ^ 48 := by omega
  set u := t.ts >>> 16 with hu
  set l := t.ts &&& 0xffff with hl
  unfold Timestamp.to_datetime_delta_ms
  rw [← hu, ← hl]
  have ha : ((u : Nat) : ℚ) * (5 / 4) = ((5 * u : Nat) : ℚ) / 2 ^ 2 := by
    push_cast
    ring
  have hb : ((l : Nat) : ℚ) / 40960 = ((l / 10240 : Nat) : ℚ) / 2 ^ 2 := by
    have hld : 10240 * (l / 10240) = l := by omega
    rw [show ((l : Nat) : ℚ) = ((10240 * (l / 10240) : Nat) : ℚ) from by rw [hld]]
    push_cast
    ring
  rw [ha, hb, roundF64_dyadic (5 * u) 2 (by omega) (by omega),
    roundF64_dyadic (l / 10240) 2 (by omega) (by omega)]
  have hs : ((5 * u : Nat) : ℚ) / 2 ^ 2 + ((l / 10240 : Nat) : ℚ) / 2 ^ 2 =
      ((5 * u + l / 10240 : Nat) : ℚ) / 2 ^ 2 := by
    push_cast
    ring
  rw [hs, roundF64_dyadic (5 * u + l / 10240) 2 (by omega) (by omega)]
  have hfl : ((5 * u + l / 10240 : Nat) : ℚ) / 2 ^ 2 =
      ((5 * u + l / 10240 : Nat) : ℚ) / ((4 : Nat) : ℚ) := by norm_num
  rw [hfl, floor_natCast_div]
  have hdiv : (5 * u + l / 10240) / 4 = (u * 51200 + l) / 40960 := by omega
  rw [hdiv]

/-- C5 counterexample: at raw ticks 40960 (upper = 0, lower = 40960,
every binary64 step exact) the code adds 1 millisecond to the epoch,
while the claim's `lower / 40960` SECONDS reading demands 1000
milliseconds: the code divides the lower term by 40960 but keeps the
result in milliseconds. -/
theorem C5_counterexample_lower_term_unit :
    Timestamp.to_datetime_unix_ms ⟨40960⟩ ≠ spec_to_datetime_unix_ms ⟨40960⟩ ∧
    Timestamp.to_datetime_unix_ms ⟨40960⟩ = epoch_1980_01_06_unix_ms + 1 ∧
    spec_to_datetime_unix_ms ⟨40960⟩ = epoch_1980_01_06_unix_ms + 1000 := by
  have hdelta : Timestamp.to_datetime_delta_ms ⟨40960⟩ = 1 := by
    rw [to_datetime_delta_ms_exact ⟨40960⟩ (by norm_num) (by decide)]
    decide
  have hcode : Timestamp.to_datetime_unix_ms ⟨40960⟩ =
      epoch_1980_01_06_unix_ms + 1 := by
    unfold Timestamp.to_datetime_unix_ms
    rw [hdelta]
  have hspec : spec_to_datetime_unix_ms ⟨40960⟩ =
      epoch_1980_01_06_unix_ms + 1000 := by
    rw [spec_to_datetime_closed_form ⟨40960⟩]
    decide
  refine ⟨?_, hcode, hspec⟩
  rw [hcode, hspec]
  decide

/-- The binary64 evaluation at raw ticks `2^56 + 40959`: the quotient
`40959 / 40960` rounds up to `9006979352415437 * 2^-53`, and adding it
to the exact product `1374389534720` rounds up across the integer
boundary, one millisecond above the exact value. -/
theorem to_datetime_delta_ms_at_f64_boundary :
    Timestamp.to_datetime_delta_ms ⟨72057594037968895⟩ = 1374389534721 := by
  show Int.floor (roundF64 (roundF64 (((72057594037968895 >>> 16 : Nat) : ℚ) * (5 / 4)) +
    roundF64 (((72057594037968895 &&& 0xffff : Nat) : ℚ) / 40960))) = 1374389534721
  have hu : (72057594037968895 : Nat) >>> 16 = 1099511627776 := by decide
  have hl : (72057594037968895 : Nat) &&& 0xffff = 40959 := by decide
  rw [hu, hl]
  have ha : ((1099511627776 : Nat) : ℚ) * (5 / 4) =
      ((5497558138880 : Nat) : ℚ) / 2 ^ 2 := by
    push_cast
    ring
  have hbq : ((40959 : Nat) : ℚ) / 40960 = (40959 : ℚ) / 40960 := by push_cast; ring
  have hbn : roundHalfEven ((40959 : ℚ) / 40960 * (2 : ℚ) ^ ((52 : Int) - (-1))) =
      9006979352415437 := by
    rw [show (40959 : ℚ) / 40960 * (2 : ℚ) ^ ((52 : Int) - (-1)) =
        (45034896762077184 : ℚ) / 5 from by norm_num]
    rw [roundHalfEven_eq_up ((45034896762077184 : ℚ) / 5) 9006979352415436
      (by norm_num) (by norm_num) (by norm_num)]
    decide
  have hb : roundF64 (((40959 : Nat) : ℚ) / 40960) =
      ((9006979352415437 : Int) : ℚ) * (2 : ℚ) ^ ((-1 : Int) - 52) := by
    rw [hbq]
    exact roundF64_eval ((40959 : ℚ) / 40960) (-1) 9006979352415437 (by norm_num)
      (by norm_num) (by norm_num) (by norm_num) (by norm_num) hbn
  rw [ha, roundF64_dyadic 5497558138880 2 (by norm_num) (by norm_num), hb]
  have hsum : ((5497558138880 : Nat) : ℚ) / 2 ^ 2 +
      ((9006979352415437 : Int) : ℚ) * (2 : ℚ) ^ ((-1 : Int) - 52) =
      (12379400392862809728343657677 : ℚ) / 9007199254740992 := by
    push_cast
    norm_num
  rw [hsum]
  have hsn : roundHalfEven ((12379400392862809728343657677 : ℚ) / 9007199254740992 *
      (2 : ℚ) ^ ((52 : Int) - 40)) = 5629499534217216 := by
    rw [show (12379400392862809728343657677 : ℚ) / 9007199254740992 *
        (2 : ℚ) ^ ((52 : Int) - 40) =
        (12379400392862809728343657677 : ℚ) / 2199023255552 from by norm_num]
    rw [roundHalfEven_eq_up ((12379400392862809728343657677 : ℚ) / 2199023255552)
      5629499534217215 (by norm_num) (by norm_num) (by norm_num)]
    decide
  rw [roundF64_eval ((12379400392862809728343657677 : ℚ) / 9007199254740992) 40
    5629499534217216 (by norm_num) (by norm_num) (by norm_num) (by norm_num)
    (by norm_num) hsn]
  rw [show ((5629499534217216 : Int) : ℚ) * (2 : ℚ) ^ ((40 : Int) - 52) =
      ((1374389534721 : Int) : ℚ) from by push_cast; norm_num]
  exact Int.floor_intCast _

/-- The binary64 evaluation 43745 ticks after the C2 reference
timestamp: the sum lands exactly halfway between two representable
values and the tie-to-even rule rounds up, one millisecond above the
exact value. -/
theorem to_datetime_delta_ms_at_f64_tie :
    Timestamp.to_datetime_delta_ms ⟨72659535985528827⟩ = 1385870666228 := by
  show Int.floor (roundF64 (roundF64 (((72659535985528827 >>> 16 : Nat) : ℚ) * (5 / 4)) +
    roundF64 (((72659535985528827 &&& 0xffff : Nat) : ℚ) / 40960))) = 1385870666228
  have hu : (72659535985528827 : Nat) >>> 16 = 1108696532982 := by decide
  have hl : (72659535985528827 : Nat) &&& 0xffff = 20475 := by decide
  rw [hu, hl]
  have ha : ((1108696532982 : Nat) : ℚ) * (5 / 4) =
      ((5543482664910 : Nat) : ℚ) / 2 ^ 2 := by
    push_cast
    ring
  have hb : ((20475 : Nat) : ℚ) / 40960 = ((4095 : Nat) : ℚ) / 2 ^ 13 := by
    push_cast
    norm_num
  rw [ha, hb, roundF64_dyadic 5543482664910 2 (by norm_num) (by norm_num),
    roundF64_dyadic 4095 13 (by norm_num) (by norm_num)]
  have hsum : ((5543482664910 : Nat) : ℚ) / 2 ^ 2 + ((4095 : Nat) : ℚ) / 2 ^ 13 =
      (11353052497739775 : ℚ) / 8192 := by
    push_cast
    norm_num
  rw [hsum]
  have hsn : roundHalfEven ((11353052497739775 : ℚ) / 8192 *
      (2 : ℚ) ^ ((52 : Int) - 40)) = 5676526248869888 := by
    rw [show (11353052497739775 : ℚ) / 8192 * (2 : ℚ) ^ ((52 : Int) - 40) =
        (11353052497739775 : ℚ) / 2 from by norm_num]
    rw [roundHalfEven_eq_tie_odd ((11353052497739775 : ℚ) / 2) 5676526248869887
      (by norm_num) (by norm_num) (by norm_num) (by decide)]
    decide
  rw [roundF64_eval ((11353052497739775 : ℚ) / 8192) 40 5676526248869888
    (by norm_num) (by norm_num) (by norm_num) (by norm_num) (by norm_num) hsn]
  rw [show ((5676526248869888 : Int) : ℚ) * (2 : ℚ) ^ ((40 : Int) - 52) =
      ((1385870666228 : Int) : ℚ) from by push_cast; norm_num]
  exact Int.floor_intCast _

/-- C5 amended: `to_datetime` splits the 64-bit value into the upper 48
and lower 16 bits and adds to the 1980-01-06 epoch the `i64` truncation
of `upper * 1.25 + lower / 40960` evaluated in IEEE binary64 —
MILLISECONDS, so the lower sub-tick term is divided by 40960 but
interpreted in milliseconds, not seconds.  Whenever the lower part is a
multiple of 10240 the binary64 arithmetic is exact and the delta equals
`(upper * 51200 + lower) / 40960`; elsewhere the binary64 rounding can
land one millisecond above that exact value, as at raw ticks
`2^56 + 40959` and `72659535985528827`. -/
theorem C5_amended_to_datetime :
    (∀ t : Timestamp, Timestamp.to_datetime_unix_ms t =
      epoch_1980_01_06_unix_ms + t.to_datetime_delta_ms) ∧
    (∀ t : Timestamp, t.ts < 2 ^ 64 → (t.ts &&& 0xffff) % 10240 = 0 →
      t.to_datetime_delta_ms =
        ((((t.ts >>> 16) * 51200 + (t.ts &&& 0xffff)) / 40960 : Nat) : Int)) ∧
    Timestamp.to_datetime_delta_ms ⟨72057594037968895⟩ = 1374389534721 ∧
    ((((72057594037968895 : Nat) >>> 16) * 51200 +
      ((72057594037968895 : Nat) &&& 0xffff)) / 40960 : Nat) = 1374389534720 ∧
    Timestamp.to_datetime_delta_ms ⟨72659535985528827⟩ = 1385870666228 ∧
    ((((72659535985528827 : Nat) >>> 16) * 51200 +
      ((72659535985528827 : Nat) &&& 0xffff)) / 40960 : Nat) = 1385870666227 :=
  ⟨fun _ => rfl, fun t hts hmod => to_datetime_delta_ms_exact t hts hmod,
   to_datetime_delta_ms_at_f64_boundary, by decide,
   to_datetime_delta_ms_at_f64_tie, by decide⟩

theorem C5_amended_to_datetime_witness :
    Timestamp.to_datetime_delta_ms ⟨72057594037968896⟩ =
      ((((72057594037968896 : Nat) >>> 16) * 51200 +
        ((72057594037968896 : Nat) &&& 0xffff)) / 40960 : Nat) :=
  C5_amended_to_datetime.2.1 ⟨72057594037968896⟩ (by norm_num) (by decide)

/-! ## The mask-loop invariant (claim C1) -/

theorem maskLoop_zero (lt bitsize : Nat) (codes : List Nat) (i cur nbw : Nat)
    (acc : List Nat) : maskLoop lt bitsize codes 0 i cur nbw acc = acc := rfl

theorem maskLoop_succ (lt bitsize : Nat) (codes : List Nat) (r i cur nbw : Nat)
    (acc : List Nat) :
    maskLoop lt bitsize codes (r + 1) i cur nbw acc =
      if nbw + 1 = 8 ∨ i = bitsize - 1 then
        maskLoop lt bitsize codes r (i + 1) 0 0
          (acc ++ [if logCodeFor lt i ∈ codes then cur ||| 1 <<< nbw else cur])
      else
        maskLoop lt bitsize codes r (i + 1)
          (if logCodeFor lt i ∈ codes then cur ||| 1 <<< nbw else cur)
          (nbw + 1) acc := by
  simp only [maskLoop, logCodeFor]

/-- The bits of the working byte after one iteration. -/
theorem workingByte_testBit {cur nbw : Nat} {b : Nat → Bool}
    (hcur : cur < 2 ^ nbw)
    (hbits : ∀ j, j < nbw → cur.testBit j = b j) (c : Prop) [Decidable c] :
    ∀ j, j < nbw + 1 →
      (if c then cur ||| 1 <<< nbw else cur).testBit j =
        (if j = nbw then decide c else b j) := by
  intro j hj
  by_cases hc : c
  · rw [if_pos hc, Nat.one_shiftLeft, Nat.testBit_lor]
    by_cases hjn : j = nbw
    · subst hjn
      rw [Nat.testBit_eq_false_of_lt hcur, Nat.testBit_two_pow_self]
      simp [hc]
    · rw [Nat.testBit_two_pow_of_ne (fun h => hjn h.symm)]
      simp only [Bool.or_false, if_neg hjn]
      exact hbits j (by omega)
  · rw [if_neg hc]
    by_cases hjn : j = nbw
    · subst hjn
      rw [Nat.testBit_eq_false_of_lt hcur]
      simp [hc]
    · rw [if_neg hjn]
      exact hbits j (by omega)

/-- The working byte stays below `2 ^ (nbw + 1)`. -/
theorem workingByte_lt {cur nbw : Nat} (hcur : cur < 2 ^ nbw) (c : Prop)
    [Decidable c] :
    (if c then cur ||| 1 <<< nbw else cur) < 2 ^ (nbw + 1) := by
  have hp : (2 : Nat) ^ nbw < 2 ^ (nbw + 1) := by
    exact Nat.pow_lt_pow_right (by omega) (by omega)
  by_cases hc : c
  · rw [if_pos hc, Nat.one_shiftLeft]
    exact Nat.or_lt_two_pow (by omega) hp
  · rw [if_neg hc]
    omega

/-- The main loop invariant: starting from a well-formed intermediate
state, `maskLoop` produces the fully packed mask.  `acc` holds the
completed bytes, `cur`/`nbw` the partial byte, `i` the next bit index
and `r = bitsize - i` the iterations left. -/
theorem maskLoop_invariant (lt bitsize : Nat) (codes : List Nat) :
    ∀ r i cur nbw acc, 1 ≤ r → i + r = bitsize → nbw ≤ 7 →
      i = 8 * acc.length + nbw → cur < 2 ^ nbw →
      (∀ j, j < nbw →
        cur.testBit j = decide (logCodeFor lt (8 * acc.length + j) ∈ codes)) →
      (∀ k, k < acc.length → acc.getD k 0 < 256) →
      (∀ j, j < 8 * acc.length →
        maskBit acc j = decide (logCodeFor lt j ∈ codes)) →
      (maskLoop lt bitsize codes r i cur nbw acc).length =
          acc.length + (nbw + r + 7) / 8 ∧
      (∀ k, k < (maskLoop lt bitsize codes r i cur nbw acc).length →
        (maskLoop lt bitsize codes r i cur nbw acc).getD k 0 < 256) ∧
      (∀ j, j < bitsize →
        maskBit (maskLoop lt bitsize codes r i cur nbw acc) j =
          decide (logCodeFor lt j ∈ codes)) ∧
      (∀ j, bitsize ≤ j →
        j < 8 * (maskLoop lt bitsize codes r i cur nbw acc).length →
        maskBit (maskLoop lt bitsize codes r i cur nbw acc) j = false) := by
  intro r
  induction r with
  | zero => intro i cur nbw acc h1; omega
  | succ r ih =>
    intro i cur nbw acc h1 h2 h3 h4 h5 h6 h7 h8
    have hcb_lt := workingByte_lt h5 (logCodeFor lt i ∈ codes)
    have hcb_bit := workingByte_testBit h5 h6 (logCodeFor lt i ∈ codes)
    set cb := if logCodeFor lt i ∈ codes then cur ||| 1 <<< nbw else cur with hcb
    by_cases hr : r = 0
    · subst hr
      have hi : i = bitsize - 1 := by omega
      rw [maskLoop_succ, if_pos (Or.inr hi), maskLoop_zero, ← hcb]
      have hlen : (acc ++ [cb]).length = acc.length + 1 := by simp
      have hbytes : ∀ k, k < (acc ++ [cb]).length → (acc ++ [cb]).getD k 0 < 256 := by
        intro k hk
        rw [hlen] at hk
        by_cases hkl : k < acc.length
        · rw [List.getD_append _ _ _ _ hkl]
          exact h7 k hkl
        · have hke : k = acc.length := by omega
          subst hke
          rw [List.getD_append_right _ _ _ _ (le_refl _)]
          simp only [Nat.sub_self, List.getD_cons_zero]
          have : (2 : Nat) ^ (nbw + 1) ≤ 2 ^ 8 := Nat.pow_le_pow_right (by omega) (by omega)
          omega
      have hbit_new : ∀ j, 8 * acc.length ≤ j → j < 8 * acc.length + 8 →
          maskBit (acc ++ [cb]) j = cb.testBit (j - 8 * acc.length) := by
        intro j hj1 hj2
        unfold maskBit
        have hdiv : j / 8 = acc.length := by omega
        have hmod : j % 8 = j - 8 * acc.length := by omega
        rw [hdiv, hmod, List.getD_append_right _ _ _ _ (le_refl _)]
        simp
      refine ⟨by simp; omega, hbytes, ?_, ?_⟩
      · intro j hj
        have hbs : bitsize = 8 * acc.length + nbw + 1 := by omega
        by_cases hjl : j < 8 * acc.length
        · unfold maskBit
          have hdiv : j / 8 < acc.length := by omega
          rw [List.getD_append _ _ _ _ hdiv]
          exact h8 j hjl
        · rw [hbit_new j (by omega) (by omega)]
          have hjb : j - 8 * acc.length < nbw + 1 := by omega
          rw [hcb_bit (j - 8 * acc.length) hjb]
          by_cases hje : j - 8 * acc.length = nbw
          · rw [if_pos hje]
            have : j = i := by omega
            rw [this]
          · rw [if_neg hje]
            have : 8 * acc.length + (j - 8 * acc.length) = j := by omega
            rw [this]
      · intro j hj1 hj2
        have hbs : bitsize = 8 * acc.length + nbw + 1 := by omega
        simp only [List.length_append, List.length_cons, List.length_nil] at hj2
        have hjr : j < 8 * acc.length + 8 := by omega
        rw [hbit_new j (by omega) (by omega)]
        have hge : nbw + 1 ≤ j - 8 * acc.length := by omega
        have hcb2 : cb < 2 ^ (j - 8 * acc.length) :=
          lt_of_lt_of_le hcb_lt (Nat.pow_le_pow_right (by omega) hge)
        exact Nat.testBit_eq_false_of_lt hcb2
    · have hr1 : 1 ≤ r := by omega
      have hne : ¬ i = bitsize - 1 := by omega
      by_cases hfl : nbw + 1 = 8
      · have hnbw : nbw = 7 := by omega
        rw [maskLoop_succ, if_pos (Or.inl hfl), ← hcb]
        have hlen : (acc ++ [cb]).length = acc.length + 1 := by simp
        have hbytes : ∀ k, k < (acc ++ [cb]).length → (acc ++ [cb]).getD k 0 < 256 := by
          intro k hk
          rw [hlen] at hk
          by_cases hkl : k < acc.length
          · rw [List.getD_append _ _ _ _ hkl]
            exact h7 k hkl
          · have hke : k = acc.length := by omega
            subst hke
            rw [List.getD_append_right _ _ _ _ (le_refl _)]
            simp only [Nat.sub_self, List.getD_cons_zero]
            have : (2 : Nat) ^ (nbw + 1) ≤ 2 ^ 8 := Nat.pow_le_pow_right (by omega) (by omega)
            omega
        have hbits : ∀ j, j < 8 * (acc ++ [cb]).length →
            maskBit (acc ++ [cb]) j = decide (logCodeFor lt j ∈ codes) := by
          intro j hj
          rw [hlen] at hj
          by_cases hjl : j < 8 * acc.length
          · unfold maskBit
            have hdiv : j / 8 < acc.length := by omega
            rw [List.getD_append _ _ _ _ hdiv]
            exact h8 j hjl
          · unfold maskBit
            have hdiv : j / 8 = acc.length := by omega
            have hmod : j % 8 = j - 8 * acc.length := by omega
            rw [hdiv, hmod, List.getD_append_right _ _ _ _ (le_refl _)]
            simp only [Nat.sub_self, List.getD_cons_zero]
            have hjb : j - 8 * acc.length < nbw + 1 := by omega
            rw [hcb_bit (j - 8 * acc.length) hjb]
            by_cases hje : j - 8 * acc.length = nbw
            · rw [if_pos hje]
              have : j = i := by omega
              rw [this]
            · rw [if_neg hje]
              have : 8 * acc.length + (j - 8 * acc.length) = j := by omega
              rw [this]
        have ihc := ih (i + 1) 0 0 (acc ++ [cb]) hr1 (by omega) (by omega)
          (by rw [hlen]; omega) (by omega)
          (by intro j hj; omega)
          hbytes
          (by intro j hj; rw [hlen] at hj; exact hbits j (by omega))
        obtain ⟨ihl, ihb, ihm, ihz⟩ := ihc
        refine ⟨?_, ihb, ihm, ihz⟩
        rw [ihl, hlen]
        omega
      · have hnbw : nbw + 1 ≤ 7 := by omega
        rw [maskLoop_succ, if_neg (by tauto), ← hcb]
        have ihc := ih (i + 1) cb (nbw + 1) acc hr1 (by omega) hnbw (by omega)
          hcb_lt
          (by
            intro j hj
            rw [hcb_bit j hj]
            by_cases hje : j = nbw
            · rw [if_pos hje]
              have : 8 * acc.length + j = i := by omega
              rw [this]
            · rw [if_neg hje])
          h7 h8
        obtain ⟨ihl, ihb, ihm, ihz⟩ := ihc
        refine ⟨?_, ihb, ihm, ihz⟩
        rw [ihl]
        have : nbw + 1 + r + 7 = nbw + (r + 1) + 7 := by omega
        rw [this]

/-- C1: for every `log_type`, `bitsize` and accepted-code set,
`build_log_mask_request` returns a `SetMask` request whose mask has
exactly `ceil(bitsize / 8)` bytes; for every bit index `i < bitsize`,
bit `i % 8` of byte `i / 8` is set iff the code
`(log_type << 12) | i` is accepted; and every bit of the final partial
byte at index `>= bitsize` is 0. -/
theorem C1_build_log_mask_request_spec (log_type log_mask_bitsize : Nat)
    (accepted_log_codes : List Nat) :
    build_log_mask_request log_type log_mask_bitsize accepted_log_codes =
      Request.LogConfig (LogConfigRequest.SetMask log_type log_mask_bitsize
        (build_log_mask log_type log_mask_bitsize accepted_log_codes)) ∧
    (build_log_mask log_type log_mask_bitsize accepted_log_codes).length =
      (log_mask_bitsize + 7) / 8 ∧
    (∀ i, i < log_mask_bitsize →
      maskBit (build_log_mask log_type log_mask_bitsize accepted_log_codes) i =
        decide (logCodeFor log_type i ∈ accepted_log_codes)) ∧
    (∀ i, log_mask_bitsize ≤ i →
      i < 8 * (build_log_mask log_type log_mask_bitsize accepted_log_codes).length →
      maskBit (build_log_mask log_type log_mask_bitsize accepted_log_codes) i =
        false) := by
  by_cases hb : log_mask_bitsize = 0
  · subst hb
    refine ⟨rfl, rfl, ?_, ?_⟩
    · intro i hi
      omega
    · intro i h1 h2
      unfold build_log_mask at h2
      rw [maskLoop_zero] at h2
      simp at h2
  · have hinv := maskLoop_invariant log_type log_mask_bitsize accepted_log_codes
      log_mask_bitsize 0 0 0 [] (by omega) (by omega) (by omega) (by simp)
      (by norm_num)
      (by intro j hj; omega)
      (by intro k hk; simp at hk)
      (by intro j hj; simp at hj)
    obtain ⟨hl, hby, hm, hz⟩ := hinv
    refine ⟨rfl, ?_, ?_, ?_⟩
    · unfold build_log_mask
      rw [hl]
      simp
    · intro i hi
      unfold build_log_mask
      exact hm i hi
    · intro i h1 h2
      unfold build_log_mask
      unfold build_log_mask at h2
      exact hz i h1 h2

/-- C9: while `Idle` (no recorder and no analyzer attached) an arriving
container is consumed but has no effect whatever the environment: no
bytes are written, the analyzer is not invoked, the store metadata is
untouched, no notification is sent or dropped, the state is unchanged
and the loop continues. -/
theorem C9_idle_discards_containers (env : PipelineEnv) (container_size : Nat) :
    handleContainer env ⟨none, false⟩ container_size =
      ⟨⟨none, false⟩, 0, false, [], [], [], StepOutcome.ok⟩ := rfl

/-- C8 (code bug): when the UI channel cannot accept a send, a
triggered heuristic warning panics the pipeline through `.expect`
(both with and without warning details) instead of being dropped,
while the detailed-status notification on the same failing channel is
dropped (`let _ = ...`) and the iteration completes normally. -/
theorem C8_warning_notification_panics_on_closed_channel :
    (handleContainer
        ⟨⟨some 0, [⟨0, 0⟩]⟩, true, true, 7, true, 2, some ⟨3, 4⟩,
          true, true, true, false⟩
        ⟨some 0, true⟩ 5).outcome =
      StepOutcome.panicked "could not send ui update message with warning details" ∧
    (handleContainer
        ⟨⟨some 0, [⟨0, 0⟩]⟩, true, true, 7, true, 2, none,
          true, true, true, false⟩
        ⟨some 0, true⟩ 5).outcome =
      StepOutcome.panicked "could not send ui update message" ∧
    (handleContainer
        ⟨⟨some 0, [⟨0, 0⟩]⟩, true, true, 7, false, 2, some ⟨3, 4⟩,
          true, true, true, false⟩
        ⟨some 0, true⟩ 5) =
      ⟨⟨some 5, true⟩, 5, true,
        [StoreUpdate.analysisSize 0 7, StoreUpdate.qmdlSize 0 5,
         StoreUpdate.lastMessageTime 0],
        [],
        [Notification.DetailedStatus 5 7 2 (some 3)],
        StepOutcome.ok⟩ :=
  ⟨rfl, rfl, rfl⟩

theorem C1_build_log_mask_request_spec_witness :
    (build_log_mask 11 10 [45059]).length = 2 ∧
    maskBit (build_log_mask 11 10 [45059]) 3 = decide (logCodeFor 11 3 ∈ [45059]) ∧
    maskBit (build_log_mask 11 10 [45059]) 15 = false :=
  ⟨(C1_build_log_mask_request_spec 11 10 [45059]).2.1,
   (C1_build_log_mask_request_spec 11 10 [45059]).2.2.1 3 (by decide),
   (C1_build_log_mask_request_spec 11 10 [45059]).2.2.2 15 (by decide) (by decide)⟩

end Rayhunter
